import Mathlib

/-!
Shallow embedding of the ORMDB Python client's statement
parser/translator/cursor layer (`src/clients/python/ormdb/sqlalchemy/dbapi.py`
and the scalar value/identifier codecs of `src/clients/python/ormdb/client.py`),
together with theorems settling the specification claims about it.

String-processing primitives model Python's `str` methods over ASCII input
(every literal the statement grammar handles is ASCII); all definitions are
structurally recursive so that concrete statements evaluate by `rfl`/`decide`.
-/

namespace Ormdb

/-- Whitespace characters stripped by Python `str.strip()` and matched by the
regex class `\s` (ASCII portion). -/
def pyIsSpace (c : Char) : Bool :=
  c = ' ' || c = '\t' || c = '\n' || c = '\x0b' || c = '\x0c' || c = '\r'

/-- Python `str.strip()` on a character list. -/
def pyStripL (l : List Char) : List Char :=
  ((l.dropWhile pyIsSpace).reverse.dropWhile pyIsSpace).reverse

/-- Python `str.strip()` on a string. -/
def pyStrip (s : String) : String :=
  String.mk (pyStripL s.toList)

/-- Python `str.upper()` (ASCII model: per-character uppercase). -/
def pyUpperL (l : List Char) : List Char :=
  l.map Char.toUpper

/-- Python `str.upper()` on a string. -/
def pyUpper (s : String) : String :=
  String.mk (pyUpperL s.toList)

/-- First index at which `pat` occurs in `hay` (Python `str.find`, with
`none` in place of `-1`). -/
def listFind : List Char → List Char → Option Nat
  | l, p =>
    if p.isPrefixOf l then some 0
    else
      match l with
      | [] => none
      | _ :: t => (listFind t p).map (· + 1)

/-- Python `sub in s` substring containment. -/
def listContains (hay pat : List Char) : Bool :=
  (listFind hay pat).isSome

/-- Python `str.replace(pat, "")` restricted to erasing every (left-to-right,
non-overlapping) occurrence of a non-empty pattern; `fuel` bounds recursion
and is instantiated with the haystack length. -/
def listEraseAllFuel (pat : List Char) : Nat → List Char → List Char
  | 0, l => l
  | _ + 1, [] => []
  | fuel + 1, c :: t =>
    if pat ≠ [] ∧ pat.isPrefixOf (c :: t) then
      listEraseAllFuel pat fuel ((c :: t).drop pat.length)
    else
      c :: listEraseAllFuel pat fuel t

/-- Python `str.replace(pat, "")`. -/
def listEraseAll (l pat : List Char) : List Char :=
  listEraseAllFuel pat l.length l

/-- Python `str.split(sep)` for a one-character separator (keeps empty parts). -/
def pySplitOn (l : List Char) (sep : Char) : List (List Char) :=
  l.splitOn sep

/-- Python `str.split()` with no argument: split on whitespace runs, dropping
empty pieces. -/
def pySplitWs (l : List Char) : List String :=
  ((l.splitOnP pyIsSpace).filter (· ≠ [])).map String.mk

/-- Python slice `l[a:b]` for non-negative bounds. -/
def pySlice (l : List Char) (a b : Nat) : List Char :=
  (l.take b).drop a

/-- Decimal digits of a character list read as a natural number
(most-significant first); assumes every character is a digit. -/
def digitsToNat (l : List Char) : Nat :=
  l.foldl (fun acc c => 10 * acc + (c.toNat - 48)) 0

/-- Python `int(s)` on a decimal string: strips whitespace, accepts an
optional sign and a non-empty digit run (digit-group underscores are not
modelled; no input in this development contains them). -/
def pyInt (s : String) : Option Int :=
  let l := pyStripL s.toList
  let (sgn, rest) :=
    match l with
    | '-' :: t => ((-1 : Int), t)
    | '+' :: t => ((1 : Int), t)
    | t => ((1 : Int), t)
  if rest ≠ [] ∧ rest.all Char.isDigit then
    some (sgn * Int.ofNat (digitsToNat rest))
  else
    none

/-- Helper for Python `float(s)`: parse an optional exponent suffix
`(e|E)[sign]digits`, returning the exponent; the suffix must consume the
whole remainder. -/
def pyFloatExp (l : List Char) : Option Int :=
  match l with
  | [] => some 0
  | e :: t =>
    if e = 'e' ∨ e = 'E' then
      let (sgn, rest) :=
        match t with
        | '-' :: r => ((-1 : Int), r)
        | '+' :: r => ((1 : Int), r)
        | r => ((1 : Int), r)
      if rest ≠ [] ∧ rest.all Char.isDigit then
        some (sgn * Int.ofNat (digitsToNat rest))
      else none
    else none

/-- Signed decimal mantissa and power-of-ten exponent of a Python float
literal `[ws][sign](digits[.digits] | .digits | digits)[(e|E)[sign]digits][ws]`;
the represented value is `mantissa * 10 ^ exponent`. -/
def pyFloatParts (s : String) : Option (Int × Int) :=
  let l := pyStripL s.toList
  let (sgn, rest) :=
    match l with
    | '-' :: t => ((-1 : Int), t)
    | '+' :: t => ((1 : Int), t)
    | t => ((1 : Int), t)
  let intPart := rest.takeWhile Char.isDigit
  let r1 := rest.drop intPart.length
  let core : Option (Int × Int × List Char) :=
    match r1 with
    | '.' :: r2 =>
      let fracPart := r2.takeWhile Char.isDigit
      let r3 := r2.drop fracPart.length
      if intPart = [] ∧ fracPart = [] then none
      else
        some (sgn * Int.ofNat (digitsToNat (intPart ++ fracPart)),
          -(Int.ofNat fracPart.length), r3)
    | _ =>
      if intPart = [] then none
      else some (sgn * Int.ofNat (digitsToNat intPart), 0, r1)
  match core with
  | none => none
  | some (m, eFrac, r) =>
    match pyFloatExp r with
    | none => none
    | some e => some (m, eFrac + e)

/-- Python `float(s)` on finite decimal forms, modelled exactly as a rational
number (binary rounding, `inf` and `nan` are not modelled; the one caller
only reaches this function with finite decimal forms). -/
def pyFloat (s : String) : Option Rat :=
  (pyFloatParts s).map fun p => (p.1 : Rat) * (10 : Rat) ^ p.2

/-- Python scalar values reaching the dbapi value codec: exactly the types
discriminated by `Cursor._convert_value`'s `isinstance` chain. A Lean `bool`
is a distinct constructor, mirroring that `isinstance(v, bool)` is tested
before `isinstance(v, int)`. -/
inductive PyValue where
  | null
  | bool (b : Bool)
  | int (n : Int)
  | float (q : Rat)
  | str (s : String)
  deriving DecidableEq

/-- Tagged wire values emitted by the value codec (`{"Int32": v}` and so on). -/
inductive WireValue where
  | null
  | bool (b : Bool)
  | int32 (n : Int)
  | int64 (n : Int)
  | float64 (q : Rat)
  | string (s : String)
  deriving DecidableEq

/-- Embedding of `Cursor._convert_value` (dbapi.py lines 587-603): Python
value to tagged wire value. The final `else: {"String": str(value)}` branch
is unreachable over the scalar value type. -/
def convertValue : PyValue → WireValue
  | .null => .null
  | .bool b => .bool b
  | .int v => if -(2 ^ 31) ≤ v ∧ v < 2 ^ 31 then .int32 v else .int64 v
  | .float q => .float64 q
  | .str s => .string s

/-- Embedding of the scalar branches of `OrmdbClient._convert_value`
(client.py lines 288-301), which are character-for-character the same code as
the dbapi codec; the `bytes`/`list` branches below them are unreachable from
scalar inputs and outside every claim. -/
def clientConvertValue : PyValue → WireValue
  | .null => .null
  | .bool b => .bool b
  | .int v => if -(2 ^ 31) ≤ v ∧ v < 2 ^ 31 then .int32 v else .int64 v
  | .float q => .float64 q
  | .str s => .string s

/-- Test of `Cursor._parse_sql_value`'s quoted-string branch: the token both
starts and ends with the given quote character. -/
def isQuotedBy (l : List Char) (q : Char) : Bool :=
  match l with
  | [] => false
  | c :: t =>
    c = q &&
      (match t.getLast? with
       | some d => d = q
       | none => true)

/-- Python `s[1:-1]`: drop the first and last characters. -/
def stripOuter (l : List Char) : List Char :=
  (l.drop 1).dropLast

/-- Embedding of `Cursor._parse_sql_value` (dbapi.py lines 529-558): strip,
then classify as quoted string, NULL, TRUE/FALSE; otherwise attempt a float
parse when the token contains a `.` and an integer parse when it does not;
fall back to the bare token. -/
def parseSqlValue (s : String) : PyValue :=
  let v := pyStripL s.toList
  if isQuotedBy v '\'' || isQuotedBy v '"' then
    .str (String.mk (stripOuter v))
  else if pyUpperL v = "NULL".toList then .null
  else if pyUpperL v = "TRUE".toList then .bool true
  else if pyUpperL v = "FALSE".toList then .bool false
  else if listContains v ['.'] then
    match pyFloat (String.mk v) with
    | some q => .float q
    | none => .str (String.mk v)
  else
    match pyInt (String.mk v) with
    | some n => .int n
    | none => .str (String.mk v)

/-- Value of one hexadecimal digit, as accepted by Python `int(x, 16)`. -/
def hexDigitVal (c : Char) : Option Nat :=
  if '0' ≤ c ∧ c ≤ '9' then some (c.toNat - 48)
  else if 'a' ≤ c ∧ c ≤ 'f' then some (c.toNat - 87)
  else if 'A' ≤ c ∧ c ≤ 'F' then some (c.toNat - 55)
  else none

/-- Pair consecutive hexadecimal digits into unsigned bytes, most significant
digit first: the comprehension `[int(hex_str[i:i+2], 16) for i in
range(0, 32, 2)]` over an even-length digit string (sign/whitespace forms
accepted by `int(x, 16)` on a two-character slice are not modelled). -/
def hexPairs : List Char → Option (List Nat)
  | [] => some []
  | a :: b :: rest =>
    match hexDigitVal a, hexDigitVal b with
    | some ha, some hb => (hexPairs rest).map (fun l => (16 * ha + hb) :: l)
    | _, _ => none
  | [_] => none

/-- Embedding of `Cursor._hex_to_uuid` (dbapi.py lines 605-610): strip
hyphens, require exactly 32 remaining characters (failing with
`ProgrammingError` naming the stripped string otherwise), then pair the hex
digits into 16 bytes. -/
def hexToUuid (s : String) : Except String (List Nat) :=
  let t := s.toList.filter (fun c => c ≠ '-')
  if t.length ≠ 32 then
    .error ("Invalid UUID hex string: " ++ String.mk t)
  else
    match hexPairs t with
    | some bs => .ok bs
    | none => .error ("invalid hexadecimal digits: " ++ String.mk t)

/-- Embedding of `OrmdbClient._hex_to_uuid` (client.py lines 324-328): no
hyphen stripping; the raw string must have length exactly 32, and the
failure message names the length rather than the string. -/
def clientHexToUuid (s : String) : Except String (List Nat) :=
  if s.toList.length ≠ 32 then
    .error ("Invalid UUID hex string length: " ++ Nat.repr s.toList.length)
  else
    match hexPairs s.toList with
    | some bs => .ok bs
    | none => .error ("invalid hexadecimal digits: " ++ s)

/-- Bytes of a 32-hex-digit identifier as the specification words them:
sixteen bytes, the i-th being the pair of digits at positions 2i (most
significant) and 2i+1. -/
def specPairBytes (t : List Char) : List Nat :=
  (List.range 16).map fun i =>
    16 * ((hexDigitVal (t.getD (2 * i) '0')).getD 0) +
      ((hexDigitVal (t.getD (2 * i + 1) '0')).getD 0)

/-- Characters matched by the regex class `\w` (ASCII model). -/
def wordChar (c : Char) : Bool :=
  c.isAlphanum || c == '_'

/-- Consume a case-insensitive literal (a regex literal compiled with
`re.IGNORECASE`), returning the remainder. -/
def matchCI : List Char → List Char → Option (List Char)
  | [], l => some l
  | _ :: _, [] => none
  | p :: ps, c :: cs => if c.toUpper == p.toUpper then matchCI ps cs else none

/-- Consume the regex `\s+`: at least one whitespace character, greedily. -/
def wsPlus (l : List Char) : Option (List Char) :=
  match l with
  | [] => none
  | c :: t => if pyIsSpace c then some (t.dropWhile pyIsSpace) else none

/-- Consume the regex `(\w+)` greedily, returning the group and remainder. -/
def wordPlus (l : List Char) : Option (List Char × List Char) :=
  let w := l.takeWhile wordChar
  if w = [] then none else some (w, l.drop w.length)

/-- Consume one expected literal character. -/
def expectChar (c : Char) : List Char → Option (List Char)
  | [] => none
  | x :: t => if x == c then some t else none

/-- Consume the regex `([^)]+)\)`: a non-empty run of non-parenthesis
characters (necessarily maximal) followed by the closing parenthesis. -/
def nonRparenPlus (l : List Char) : Option (List Char × List Char) :=
  let g := l.takeWhile (fun c => c ≠ ')')
  if g = [] then none
  else
    match l.drop g.length with
    | ')' :: r => some (g, r)
    | _ => none

/-- Consume the regex fragment `['\"]?([^'\"]+)` with its backtracking: the
optional opening quote is taken greedily and given back when the mandatory
group cannot match; the trailing optional quote constrains nothing. Returns
the group. -/
def idPart (l : List Char) : Option (List Char) :=
  let grab := fun (m : List Char) =>
    let g := m.takeWhile (fun c => c ≠ '\'' && c ≠ '"')
    if g = [] then none else some g
  match l with
  | [] => none
  | c :: rest =>
    if c == '\'' || c == '"' then
      match grab rest with
      | some g => some g
      | none => grab l
    else grab l

/-- Operator alternatives of `Cursor._parse_where`'s regex, in the source's
alternation order. -/
def whereOpAlternatives : List (List Char) :=
  [['='], ['!', '='], ['<', '>'], ['<', '='], ['>', '='], ['<'], ['>'],
    ['L', 'I', 'K', 'E'], ['I', 'N']]

/-- Operator translation table `op_map` of `_parse_where` (default "eq"). -/
def opMap (op : String) : String :=
  if op = "=" then "eq"
  else if op = "!=" then "ne"
  else if op = "<>" then "ne"
  else if op = "<" then "lt"
  else if op = ">" then "gt"
  else if op = "<=" then "le"
  else if op = ">=" then "ge"
  else if op = "LIKE" then "like"
  else if op = "IN" then "in"
  else "eq"

/-- Translated single-predicate filter expression `{field, op, value}`. -/
structure FilterExpr where
  field : String
  op : String
  value : PyValue
  deriving DecidableEq

/-- Try the operator alternatives in order at the position after `\s*`; on a
match, `\s*(.+)` must still find at least one character, else the regex
backtracks to the next alternative. Returns the upper-cased operator text
(the source applies `.upper()` to group 2) and the text matched by `(.+)`. -/
def whereTryOps : List (List Char) → List Char → Option (String × List Char)
  | [], _ => none
  | op :: ops, rest1 =>
    match matchCI op rest1 with
    | some rest2 =>
      if rest2 = [] then whereTryOps ops rest1
      else
        let ws := (rest2.takeWhile pyIsSpace).length
        some (String.mk (pyUpperL op), rest2.drop (min ws (rest2.length - 1)))
    | none => whereTryOps ops rest1

/-- Backtracking over the greedy `(\w+)` field group: try the longest word
prefix first, then give characters back one at a time. -/
def whereTryField (cs : List Char) : Nat → Option FilterExpr
  | 0 => none
  | k + 1 =>
    let rest1 := (cs.drop (k + 1)).dropWhile pyIsSpace
    match whereTryOps whereOpAlternatives rest1 with
    | some (op, valuePart) =>
      some { field := String.mk (cs.take (k + 1)), op := opMap op,
             value := parseSqlValue (String.mk (pyStripL valuePart)) }
    | none => whereTryField cs k

/-- Embedding of `Cursor._parse_where` (dbapi.py lines 405-444):
`re.match(r"(\w+)\s*(=|!=|<>|<=|>=|<|>|LIKE|IN)\s*(.+)", w, IGNORECASE)`,
operator translation, and literal parsing of the stripped value group;
`none` models the `ProgrammingError` raised when the regex does not match. -/
def parseWhere (w : String) : Option FilterExpr :=
  let cs := w.toList
  whereTryField cs (cs.takeWhile wordChar).length

/-- One `{field, direction}` entry of a translated ORDER BY list. -/
structure OrderItem where
  field : String
  direction : String
  deriving DecidableEq

/-- Embedding of `Cursor._parse_order_by` (dbapi.py lines 446-459). A part
with an explicit direction has its field taken from the upper-cased copy
with the direction word erased (the source's documented case quirk). -/
def parseOrderBy (clause : List Char) : List OrderItem :=
  (pySplitOn clause ',').map fun part0 =>
    let part := pyStripL part0
    let up := pyUpperL part
    if listContains up " DESC".toList then
      { field := String.mk (pyStripL (listEraseAll up " DESC".toList)),
        direction := "desc" }
    else if listContains up " ASC".toList then
      { field := String.mk (pyStripL (listEraseAll up " ASC".toList)),
        direction := "asc" }
    else { field := String.mk part, direction := "asc" }

/-- Embedding of `Cursor._parse_value_list`'s character loop (dbapi.py lines
560-585): quote-aware splitting on commas, parsing each piece. -/
def parseValueListGo :
    List Char → List PyValue → List Char → Bool → Option Char → List PyValue
  | [], values, current, _, _ =>
    if pyStripL current ≠ [] then
      values ++ [parseSqlValue (String.mk (pyStripL current))]
    else values
  | c :: rest, values, current, inQuotes, quoteChar =>
    if (c == '\'' || c == '"') && !inQuotes then
      parseValueListGo rest values (current ++ [c]) true (some c)
    else if some c == quoteChar && inQuotes then
      parseValueListGo rest values (current ++ [c]) false none
    else if c == ',' && !inQuotes then
      parseValueListGo rest
        (values ++ [parseSqlValue (String.mk (pyStripL current))]) []
        inQuotes quoteChar
    else parseValueListGo rest values (current ++ [c]) inQuotes quoteChar

/-- Embedding of `Cursor._parse_value_list` (dbapi.py lines 560-585). -/
def parseValueList (l : List Char) : List PyValue :=
  parseValueListGo l [] [] false none

/-- One insertion/update step of a Python `dict`: an existing key keeps its
position and takes the new value; a new key is appended. -/
def dictUpsert (d : List (String × PyValue)) (k : String) (v : PyValue) :
    List (String × PyValue) :=
  match d with
  | [] => [(k, v)]
  | (k0, v0) :: rest =>
    if k0 = k then (k0, v) :: rest else (k0, v0) :: dictUpsert rest k v

/-- Ordered items of the Python `dict` built from a pair list, as produced by
`dict(zip(fields, values))` or by repeated `d[k] = v` assignments: insertion
order with duplicate keys collapsed (first position, last value). -/
def pyDictOfList (l : List (String × PyValue)) : List (String × PyValue) :=
  l.foldl (fun d kv => dictUpsert d kv.1 kv.2) []

/-- Failures raised out of `Cursor.execute`: `InterfaceError` on a closed
cursor, `ProgrammingError` for grammar/validation failures,
`OperationalError` for transport failures (the source wraps `httpx.HTTPError`
this way), and Python `ValueError`/`IndexError` escaping the `int()` and
indexing calls of the LIMIT/OFFSET and SET-clause parsing. -/
inductive ExecErr where
  | interfaceClosed
  | programming (msg : String)
  | operational (msg : String)
  | valueError (msg : String)
  deriving DecidableEq

/-- Regex of `Cursor._parse_insert`:
`INSERT\s+INTO\s+(\w+)\s*\(([^)]+)\)\s*VALUES\s*\(([^)]+)\)` (IGNORECASE),
returning the entity, field-list text and value-list text groups. -/
def insertMatch (l : List Char) : Option (String × List Char × List Char) := do
  let r1 ← matchCI "INSERT".toList l
  let r2 ← wsPlus r1
  let r3 ← matchCI "INTO".toList r2
  let r4 ← wsPlus r3
  let (ent, r5) ← wordPlus r4
  let r6 ← expectChar '(' (r5.dropWhile pyIsSpace)
  let (flds, r7) ← nonRparenPlus r6
  let r8 ← matchCI "VALUES".toList (r7.dropWhile pyIsSpace)
  let r9 ← expectChar '(' (r8.dropWhile pyIsSpace)
  let (vals, _) ← nonRparenPlus r9
  pure (String.mk ent, flds, vals)

/-- Embedding of `Cursor._parse_insert` (dbapi.py lines 461-484). The
returned data is `dict(zip(fields, values))` in its insertion-ordered item
form. -/
def parseInsert (sql : String) :
    Except ExecErr (String × List (String × PyValue)) :=
  match insertMatch sql.toList with
  | none => .error (.programming ("Cannot parse INSERT: " ++ sql))
  | some (ent, fldsC, valsC) =>
    let fields := (pySplitOn fldsC ',').map (fun f => String.mk (pyStripL f))
    let values := parseValueList valsC
    if fields.length ≠ values.length then
      .error (.programming "Field count doesn't match value count")
    else .ok (ent, pyDictOfList (fields.zip values))

/-- Consume the regex fragment `\s+WHERE\s+id\s*=\s*['\"]?([^'\"]+)['\"]?`
(IGNORECASE), returning the identifier group. -/
def matchWherePart (l : List Char) : Option (List Char) := do
  let r1 ← wsPlus l
  let r2 ← matchCI "WHERE".toList r1
  let r3 ← wsPlus r2
  let r4 ← matchCI "id".toList r3
  let r5 ← expectChar '=' (r4.dropWhile pyIsSpace)
  idPart (r5.dropWhile pyIsSpace)

/-- Backtracking split for `(.+)\s+WHERE\s+id\s*=\s*...`: the greedy `(.+)`
commits to the longest prefix after which the rest of the pattern matches,
so split points are tried from the right. -/
def updateSplit (r : List Char) : Nat → Option (List Char × List Char)
  | 0 => none
  | p + 1 =>
    match matchWherePart (r.drop (p + 1)) with
    | some idg => some (r.take (p + 1), idg)
    | none => updateSplit r p

/-- Regex of `Cursor._parse_update`:
`UPDATE\s+(\w+)\s+SET\s+(.+)\s+WHERE\s+id\s*=\s*['\"]?([^'\"]+)['\"]?`
(IGNORECASE), returning entity, SET-clause text and identifier groups. -/
def updateMatch (l : List Char) : Option (String × List Char × List Char) := do
  let r1 ← matchCI "UPDATE".toList l
  let r2 ← wsPlus r1
  let (ent, r3) ← wordPlus r2
  let r4 ← wsPlus r3
  let r5 ← matchCI "SET".toList r4
  let r6 ← wsPlus r5
  let (setC, idg) ← updateSplit r6 (r6.length - 1)
  pure (String.mk ent, setC, idg)

/-- Python `assignment.split("=", 1)`: split at the first `=`, or fail the
two-name unpacking when there is none. -/
def splitOnceEq (a : List Char) : Option (List Char × List Char) :=
  match listFind a ['='] with
  | none => none
  | some i => some (a.take i, a.drop (i + 1))

/-- SET-clause loop of `Cursor._parse_update`: split on commas, split each
assignment once on `=`, and build the `data` dict by repeated assignment. -/
def parseSetClause :
    List (List Char) → List (String × PyValue) →
      Except ExecErr (List (String × PyValue))
  | [], d => .ok d
  | a :: rest, d =>
    match splitOnceEq a with
    | none => .error (.valueError "not enough values to unpack")
    | some (f, v) =>
      parseSetClause rest
        (dictUpsert d (String.mk (pyStripL f))
          (parseSqlValue (String.mk (pyStripL v))))

/-- Embedding of `Cursor._parse_update` (dbapi.py lines 486-509). -/
def parseUpdate (sql : String) :
    Except ExecErr (String × String × List (String × PyValue)) :=
  match updateMatch sql.toList with
  | none => .error (.programming ("Cannot parse UPDATE: " ++ sql))
  | some (ent, setC, idg) =>
    match parseSetClause (pySplitOn setC ',') [] with
    | .error e => .error e
    | .ok d => .ok (ent, String.mk (pyStripL idg), d)

/-- Regex of `Cursor._parse_delete`:
`DELETE\s+FROM\s+(\w+)\s+WHERE\s+id\s*=\s*['\"]?([^'\"]+)['\"]?`
(IGNORECASE). -/
def deleteMatch (l : List Char) : Option (String × List Char) := do
  let r1 ← matchCI "DELETE".toList l
  let r2 ← wsPlus r1
  let r3 ← matchCI "FROM".toList r2
  let r4 ← wsPlus r3
  let (ent, r5) ← wordPlus r4
  let idg ← matchWherePart r5
  pure (String.mk ent, idg)

/-- Embedding of `Cursor._parse_delete` (dbapi.py lines 511-527). -/
def parseDelete (sql : String) : Except ExecErr (String × String) :=
  match deleteMatch sql.toList with
  | none => .error (.programming ("Cannot parse DELETE: " ++ sql))
  | some (ent, idg) => .ok (ent, String.mk (pyStripL idg))

/-- Parsed components of a SELECT statement as returned by
`Cursor._parse_select`: entity, field list, optional filter, optional order
list, optional limit and offset. -/
structure SelectStmt where
  entity : String
  fields : List String
  filter : Option FilterExpr
  orderBy : Option (List OrderItem)
  limit : Option Int
  offset : Option Int
  deriving DecidableEq

/-- Python `int(s)` with `ValueError` on failure. -/
def pyIntE (s : String) : Except ExecErr Int :=
  match pyInt s with
  | some n => .ok n
  | none => .error (.valueError ("invalid literal for int: " ++ s))

/-- Python `list[0]` with `IndexError` on an empty list. -/
def headE (l : List String) : Except ExecErr String :=
  match l with
  | [] => .error (.valueError "list index out of range")
  | h :: _ => .ok h

/-- Embedding of `Cursor._parse_select` (dbapi.py lines 329-403): clause
boundaries found by substring search on the upper-cased text, entity up to
the earliest of WHERE/ORDER BY/LIMIT, then WHERE, ORDER BY and
LIMIT/OFFSET parsing with `int()` failures propagating. -/
def parseSelect (sql : String) : Except ExecErr SelectStmt :=
  let sqlL := pyStripL (sql.toList.drop 6)
  match listFind (pyUpperL sqlL) " FROM ".toList with
  | none => .error (.programming "Invalid SELECT: missing FROM clause")
  | some fromIdx =>
    let fields := (pySplitOn (pyStripL (sqlL.take fromIdx)) ',').map
      (fun f => String.mk (pyStripL f))
    let remaining := pyStripL (sqlL.drop (fromIdx + 6))
    let up := pyUpperL remaining
    let whereIdx := listFind up " WHERE ".toList
    let orderIdx := listFind up " ORDER BY ".toList
    let limitIdx := listFind up " LIMIT ".toList
    let offsetIdx := listFind up " OFFSET ".toList
    let entityEnd :=
      (([whereIdx, orderIdx, limitIdx].filterMap id).min?).getD remaining.length
    let entity := String.mk (pyStripL (remaining.take entityEnd))
    let filterRes : Except ExecErr (Option FilterExpr) :=
      match whereIdx with
      | none => .ok none
      | some wi =>
        let whereEnd :=
          (([orderIdx, limitIdx].filterMap id).min?).getD remaining.length
        let wc := String.mk (pyStripL (pySlice remaining (wi + 7) whereEnd))
        match parseWhere wc with
        | some f => .ok (some f)
        | none => .error (.programming ("Cannot parse WHERE clause: " ++ wc))
    match filterRes with
    | .error e => .error e
    | .ok filterE =>
      let orderBy :=
        match orderIdx with
        | none => none
        | some oi =>
          let orderEnd := match limitIdx with | some li => li | none => remaining.length
          some (parseOrderBy (pyStripL (pySlice remaining (oi + 10) orderEnd)))
      let limRes : Except ExecErr (Option Int × Option Int) :=
        match limitIdx with
        | none => .ok (none, none)
        | some li =>
          let limitStr := pyStripL (remaining.drop (li + 7))
          match listFind (pyUpperL limitStr) " OFFSET ".toList with
          | some oil => do
            let lv ← pyIntE (String.mk (pyStripL (limitStr.take oil)))
            let ov ← pyIntE (String.mk (pyStripL (limitStr.drop (oil + 8))))
            pure (some lv, some ov)
          | none => do
            let h ← headE (pySplitWs limitStr)
            let lv ← pyIntE h
            pure (some lv, none)
      match limRes with
      | .error e => .error e
      | .ok (limit, offset0) =>
        match offsetIdx, offset0 with
        | some oi, none => do
          let offsetStr := pyStripL (remaining.drop (oi + 8))
          let h ← headE (pySplitWs offsetStr)
          let ov ← pyIntE h
          pure ⟨entity, fields, filterE, orderBy, limit, some ov⟩
        | _, _ => .ok ⟨entity, fields, filterE, orderBy, limit, offset0⟩

/-- Pagination object of a query payload. -/
structure Pagination where
  limit : Int
  offset : Int
  deriving DecidableEq

/-- Outbound `/query` request body built by `Cursor._execute_query`:
`root_entity` always, the remaining keys only when present. -/
structure QueryPayload where
  root_entity : String
  fields : Option (List String)
  filter : Option FilterExpr
  order_by : Option (List OrderItem)
  pagination : Option Pagination
  deriving DecidableEq

/-- Python `x or d` for an optional integer (`None` and `0` are falsy). -/
def pyOrInt (o : Option Int) (d : Int) : Int :=
  match o with
  | none => d
  | some v => if v = 0 then d else v

/-- Payload construction of `Cursor._execute_query` (dbapi.py lines
216-228) from the parsed SELECT components. -/
def buildQueryPayload (st : SelectStmt) : QueryPayload :=
  { root_entity := st.entity
    fields := if st.fields ≠ [] ∧ st.fields ≠ ["*"] then some st.fields else none
    filter := st.filter
    order_by :=
      match st.orderBy with
      | some l => if l = [] then none else some l
      | none => none
    pagination :=
      if st.limit.isSome ∨ st.offset.isSome then
        some ⟨pyOrInt st.limit 100, pyOrInt st.offset 0⟩
      else none }

/-- Parse-and-build pipeline for a SELECT statement text. -/
def buildSelectPayload (sql : String) : Except ExecErr QueryPayload :=
  match parseSelect sql with
  | .error e => .error e
  | .ok st => .ok (buildQueryPayload st)

/-- Outbound `/mutate` request body: a single-key tagged object. -/
inductive MutationPayload where
  | insert (entity : String) (data : List (String × WireValue))
  | update (entity : String) (id : List Nat) (data : List (String × WireValue))
  | delete (entity : String) (id : List Nat)
  deriving DecidableEq

/-- Data list sent in an Insert/Update mutation: the dict items in insertion
order, each value encoded by the value codec. -/
def mutationData (items : List (String × PyValue)) : List (String × WireValue) :=
  items.map fun kv => (kv.1, convertValue kv.2)

/-- Parse-and-build pipeline for an INSERT statement text (payload
construction of `Cursor._execute_insert`, dbapi.py lines 256-269). -/
def buildInsertPayload (sql : String) : Except ExecErr MutationPayload :=
  match parseInsert sql with
  | .error e => .error e
  | .ok (ent, items) => .ok (.insert ent (mutationData items))

/-- Parse-and-build pipeline for an UPDATE statement text (payload
construction of `Cursor._execute_update`, dbapi.py lines 283-297; the
identifier decode failure propagates as `ProgrammingError`). -/
def buildUpdatePayload (sql : String) : Except ExecErr MutationPayload :=
  match parseUpdate sql with
  | .error e => .error e
  | .ok (ent, entityId, items) =>
    match hexToUuid entityId with
    | .error m => .error (.programming m)
    | .ok idBytes => .ok (.update ent idBytes (mutationData items))

/-- Parse-and-build pipeline for a DELETE statement text (payload
construction of `Cursor._execute_delete`, dbapi.py lines 308-317). -/
def buildDeletePayload (sql : String) : Except ExecErr MutationPayload :=
  match parseDelete sql with
  | .error e => .error e
  | .ok (ent, entityId) =>
    match hexToUuid entityId with
    | .error m => .error (.programming m)
    | .ok idBytes => .ok (.delete ent idBytes)

/-- One response row: an ordered field-name-to-value mapping. -/
def RespRow := List (String × PyValue)

/-- One block of the `data.entities` response sequence. -/
structure QBlock where
  rows : List RespRow

/-- Well-shaped `/query` response body (the row-shape precondition on the
remote collaborator is baked into the type, as the source never checks it). -/
structure QueryResponse where
  entities : List QBlock

/-- Well-shaped `/mutate` response body. -/
structure MutationResponse where
  affected : Int
  insertedIds : List String

/-- Cursor state: the fields of the Python `Cursor` object that statement
execution and row retrieval touch. The description is modelled by its
column-name component (the six `None` paddings of each 7-tuple carry no
information). -/
structure Cursor where
  closed : Bool
  description : Option (List String)
  rowcount : Int
  arraysize : Nat
  rows : List (List PyValue)
  rowIndex : Nat
  lastInsertedId : Option String

/-- State reset performed at the top of `Cursor.execute` (dbapi.py lines
181-186). -/
def Cursor.reset (c : Cursor) : Cursor :=
  { c with rows := [], rowIndex := 0, description := none, rowcount := -1,
           lastInsertedId := none }

/-- Response materialization and state update of `Cursor._execute_query`
(dbapi.py lines 210-254), after the transport call: flatten block rows in
order, derive the description from the first row's keys, store tuples of
row values, set the row count. -/
def Cursor.finishQuery (c : Cursor) (resp : QueryResponse) : Cursor :=
  let entities := resp.entities.foldl (fun acc b => acc ++ b.rows) []
  match entities with
  | [] => { c with rows := [], rowcount := 0 }
  | first :: _ =>
    { c with
      description := some (first.map (fun kv => kv.1)),
      rows := entities.map (fun r => r.map (fun kv => kv.2)),
      rowcount := Int.ofNat entities.length }

/-- State update of `Cursor._execute_insert` (dbapi.py lines 278-281) from
the mutation response. -/
def Cursor.finishInsert (c : Cursor) (res : MutationResponse) : Cursor :=
  let c1 := { c with rowcount := res.affected }
  match res.insertedIds with
  | [] => c1
  | id0 :: _ => { c1 with lastInsertedId := some id0 }

/-- Embedding of `Cursor.execute` at `parameters=None` (dbapi.py lines
171-208; the `operation % parameters` interpolation is outside every claim):
reset the result state, dispatch on the leading keyword, run the statement
pipeline against the transport oracles, and return the final state together
with the raised failure, if any. -/
def Cursor.execute (c : Cursor) (operation : String)
    (onQuery : QueryPayload → Except String QueryResponse)
    (onMutate : MutationPayload → Except String MutationResponse) :
    Cursor × Option ExecErr :=
  if c.closed then (c, some .interfaceClosed)
  else
    let c := c.reset
    let op := pyStrip operation
    let u := (pyUpper op).toList
    if "SELECT".toList.isPrefixOf u then
      match buildSelectPayload op with
      | .error e => (c, some e)
      | .ok payload =>
        match onQuery payload with
        | .error m => (c, some (.operational ("HTTP error: " ++ m)))
        | .ok resp => (c.finishQuery resp, none)
    else if "INSERT".toList.isPrefixOf u then
      match buildInsertPayload op with
      | .error e => (c, some e)
      | .ok payload =>
        match onMutate payload with
        | .error m => (c, some (.operational ("HTTP error: " ++ m)))
        | .ok res => (c.finishInsert res, none)
    else if "UPDATE".toList.isPrefixOf u then
      match buildUpdatePayload op with
      | .error e => (c, some e)
      | .ok payload =>
        match onMutate payload with
        | .error m => (c, some (.operational ("HTTP error: " ++ m)))
        | .ok res => ({ c with rowcount := res.affected }, none)
    else if "DELETE".toList.isPrefixOf u then
      match buildDeletePayload op with
      | .error e => (c, some e)
      | .ok payload =>
        match onMutate payload with
        | .error m => (c, some (.operational ("HTTP error: " ++ m)))
        | .ok res => ({ c with rowcount := res.affected }, none)
    else if "--".toList.isPrefixOf u then (c, none)
    else (c, some (.programming ("Unsupported operation: " ++ op)))

/-- Embedding of `Cursor.fetchone` (dbapi.py lines 619-625). -/
def Cursor.fetchone (c : Cursor) : Option (List PyValue) × Cursor :=
  if h : c.rowIndex < c.rows.length then
    (some (c.rows.get ⟨c.rowIndex, h⟩), { c with rowIndex := c.rowIndex + 1 })
  else (none, c)

/-- Embedding of `Cursor.fetchmany` (dbapi.py lines 627-634): slice up to
`size` rows (defaulting to the array size) from the current position and
advance by the number actually returned. -/
def Cursor.fetchmany (c : Cursor) (size : Option Nat) :
    List (List PyValue) × Cursor :=
  let sz := size.getD c.arraysize
  let rows := (c.rows.drop c.rowIndex).take sz
  (rows, { c with rowIndex := c.rowIndex + rows.length })

/-- Embedding of `Cursor.fetchall` (dbapi.py lines 636-640). -/
def Cursor.fetchall (c : Cursor) : List (List PyValue) × Cursor :=
  (c.rows.drop c.rowIndex, { c with rowIndex := c.rows.length })

/-- Repeatedly call `fetchmany n` until it returns an empty batch,
concatenating the batches in call order and returning the final state. -/
def fetchmanyUntilEmpty (c : Cursor) (n : Nat) :
    List (List PyValue) × Cursor :=
  let p := c.fetchmany (some n)
  if h : p.1 = [] then ([], p.2)
  else
    let q := fetchmanyUntilEmpty p.2 n
    (p.1 ++ q.1, q.2)
termination_by c.rows.length - c.rowIndex
decreasing_by
  simp only [Cursor.fetchmany]
  have hp : p.1 = (c.rows.drop c.rowIndex).take ((some n).getD c.arraysize) := rfl
  have h1 : 1 ≤ ((c.rows.drop c.rowIndex).take ((some n).getD c.arraysize)).length := by
    rw [hp] at h
    cases hc : (c.rows.drop c.rowIndex).take ((some n).getD c.arraysize) with
    | nil => exact absurd hc h
    | cons a t => simp [hc]
  have h2 : c.rowIndex < c.rows.length := by
    by_contra hle
    push_neg at hle
    have hd : c.rows.drop c.rowIndex = [] := List.drop_eq_nil_of_le hle
    rw [hp, hd] at h
    simp at h
  omega

/-- Every character of the list is a hexadecimal digit. -/
def allHexDigits (t : List Char) : Bool :=
  t.all fun c => (hexDigitVal c).isSome

/-- Sample cursor holding a stale result, used to exercise the execute and
fetch state machines at concrete inputs. -/
def sampleCursor : Cursor :=
  { closed := false, description := some ["x"], rowcount := 3, arraysize := 1,
    rows := [[PyValue.int 1], [PyValue.int 2], [PyValue.int 3]], rowIndex := 1,
    lastInsertedId := some "id0" }

/-- Transport oracle that fails every query request. -/
def failTransportQ : QueryPayload → Except String QueryResponse :=
  fun _ => .error "connection refused"

/-- Transport oracle that fails every mutation request. -/
def failTransportM : MutationPayload → Except String MutationResponse :=
  fun _ => .error "connection refused"

/-!
Theorems settling the specification claims.
-/

/-- C1: for every Python integer value reaching the integer branch of the
value codec (`Cursor._convert_value` and the identical scalar branch of
`OrmdbClient._convert_value`), the encoded wire value is tagged `Int32`
exactly when the value lies in `[-2^31, 2^31)`, and is tagged `Int64` with
the same numeric payload otherwise. -/
theorem convert_value_int_range (v : Int) :
    (convertValue (.int v) = .int32 v ↔ -(2 ^ 31) ≤ v ∧ v < 2 ^ 31) ∧
    (¬(-(2 ^ 31) ≤ v ∧ v < 2 ^ 31) → convertValue (.int v) = .int64 v) ∧
    (clientConvertValue (.int v) = .int32 v ↔ -(2 ^ 31) ≤ v ∧ v < 2 ^ 31) ∧
    (¬(-(2 ^ 31) ≤ v ∧ v < 2 ^ 31) → clientConvertValue (.int v) = .int64 v) := by
  by_cases hc : -(2 ^ 31) ≤ v ∧ v < 2 ^ 31 <;>
    simp [convertValue, clientConvertValue, hc]

/-- Witness for C1 at the first integer outside the Int32 range. -/
theorem convert_value_int_range_witness :
    convertValue (.int (2 ^ 31)) = .int64 (2 ^ 31) ∧
    clientConvertValue (.int (2 ^ 31)) = .int64 (2 ^ 31) := by
  have h := convert_value_int_range (2 ^ 31)
  exact ⟨h.2.1 (by decide), h.2.2.2 (by decide)⟩

/-- C10: both value codecs tag a boolean `Bool` (never `Int32`/`Int64`),
because the boolean test precedes the integer test. -/
theorem convert_value_bool_tag (b : Bool) :
    convertValue (.bool b) = .bool b ∧
    clientConvertValue (.bool b) = .bool b :=
  ⟨rfl, rfl⟩

/-- C4: the WHERE-clause parser accepts compound predicates rather than
rejecting them: its unanchored regex folds everything after the first
operator into the value group, so `a=1 AND b=2` and `a=1 OR b=2` parse
successfully, with the conjunction text silently becoming the comparison
value. -/
theorem parse_where_accepts_conjunction :
    parseWhere "a=1 AND b=2" =
      some { field := "a", op := "eq", value := PyValue.str "1 AND b=2" } ∧
    parseWhere "a=1 OR b=2" =
      some { field := "a", op := "eq", value := PyValue.str "1 OR b=2" } :=
  ⟨rfl, rfl⟩

/-- C8: with the read position strictly below the row count, `fetchone`
returns the row at the position and advances by one; with the position at
the row count it returns the no-more-rows signal `None` without error and
without moving. -/
theorem fetchone_spec (c : Cursor) :
    (∀ h : c.rowIndex < c.rows.length,
      c.fetchone = (some (c.rows.get ⟨c.rowIndex, h⟩),
        { c with rowIndex := c.rowIndex + 1 })) ∧
    (c.rowIndex = c.rows.length → c.fetchone = (none, c)) := by
  constructor
  · intro h
    simp [Cursor.fetchone, h]
  · intro h
    simp [Cursor.fetchone, h]

/-- Witness for C8: one fetch from the sample cursor returns its second row
and advances; a cursor at the end of its row buffer yields `None`. -/
theorem fetchone_spec_witness :
    sampleCursor.fetchone = (some [PyValue.int 2],
      { sampleCursor with rowIndex := 2 }) ∧
    Cursor.fetchone { sampleCursor with rowIndex := 3 } =
      (none, { sampleCursor with rowIndex := 3 }) := by
  constructor
  · exact (fetchone_spec sampleCursor).1 (by decide)
  · exact (fetchone_spec { sampleCursor with rowIndex := 3 }).2 (by decide)

/-- Splitting a list at the length actually taken reassembles it, whether or
not the requested prefix length exceeds the list. -/
theorem take_append_drop_length {α : Type} (n : Nat) (l : List α) :
    l.take n ++ l.drop (l.take n).length = l := by
  rw [List.length_take]
  rcases Nat.le_total n l.length with h | h
  · rw [Nat.min_eq_left h, List.take_append_drop]
  · rw [Nat.min_eq_right h, List.take_of_length_le h, List.drop_length,
      List.append_nil]

/-- Behaviour of the fetchmany-until-empty loop with a positive batch size
from a position within the row buffer: it yields the remaining rows in
order and stops with the position at the row count, never touching the row
buffer itself. -/
theorem fetchmanyUntilEmpty_spec (n : Nat) (hn : 0 < n) :
    ∀ (m : Nat) (c : Cursor), c.rows.length - c.rowIndex = m →
      c.rowIndex ≤ c.rows.length →
      (fetchmanyUntilEmpty c n).1 = c.rows.drop c.rowIndex ∧
      (fetchmanyUntilEmpty c n).2.rowIndex = c.rows.length ∧
      (fetchmanyUntilEmpty c n).2.rows = c.rows := by
  intro m
  induction m using Nat.strong_induction_on with
  | _ m ih =>
    intro c hm hi
    rw [fetchmanyUntilEmpty]
    by_cases hb : ((Cursor.fetchmany c (some n)).1 = [])
    · have hbatch : (c.rows.drop c.rowIndex).take n = [] := hb
      have hdrop : c.rows.drop c.rowIndex = [] := by
        rcases List.take_eq_nil_iff.mp hbatch with h | h
        · omega
        · exact h
      have hlen : c.rows.length ≤ c.rowIndex := by
        have := congrArg List.length hdrop
        simp [List.length_drop] at this
        omega
      have hidx : c.rowIndex = c.rows.length := by omega
      simp [hb, Cursor.fetchmany, hdrop, hidx]
    · have hbatch : (Cursor.fetchmany c (some n)).1 =
          (c.rows.drop c.rowIndex).take n := rfl
      have hlen1 : 1 ≤ ((c.rows.drop c.rowIndex).take n).length := by
        rw [hbatch] at hb
        cases hc : (c.rows.drop c.rowIndex).take n with
        | nil => exact absurd hc hb
        | cons a t => simp [hc]
      have hlt : c.rowIndex < c.rows.length := by
        by_contra hle
        push_neg at hle
        have hd : c.rows.drop c.rowIndex = [] := List.drop_eq_nil_of_le hle
        rw [hbatch, hd] at hb
        simp at hb
      have hlen2 : ((c.rows.drop c.rowIndex).take n).length ≤
          c.rows.length - c.rowIndex := by
        have := List.length_take n (c.rows.drop c.rowIndex)
        rw [List.length_drop] at this
        omega
      have hrows2 : (Cursor.fetchmany c (some n)).2.rows = c.rows := rfl
      have hidx2 : (Cursor.fetchmany c (some n)).2.rowIndex =
          c.rowIndex + ((c.rows.drop c.rowIndex).take n).length := rfl
      have hmeas : c.rows.length -
          (c.rowIndex + ((c.rows.drop c.rowIndex).take n).length) < m := by
        omega
      have hmeq : (Cursor.fetchmany c (some n)).2.rows.length -
          (Cursor.fetchmany c (some n)).2.rowIndex =
          c.rows.length -
            (c.rowIndex + ((c.rows.drop c.rowIndex).take n).length) := by
        rw [hidx2, hrows2]
      have hile : (Cursor.fetchmany c (some n)).2.rowIndex ≤
          (Cursor.fetchmany c (some n)).2.rows.length := by
        rw [hidx2, hrows2]
        omega
      have hstep := ih _ hmeas (Cursor.fetchmany c (some n)).2 hmeq hile
      rw [dif_neg hb]
      refine ⟨?_, ?_, ?_⟩
      · show (Cursor.fetchmany c (some n)).1 ++
          (fetchmanyUntilEmpty (Cursor.fetchmany c (some n)).2 n).1 =
          c.rows.drop c.rowIndex
        rw [hbatch, hstep.1, hrows2, hidx2]
        have hdd : c.rows.drop
            (c.rowIndex + ((c.rows.drop c.rowIndex).take n).length) =
            (c.rows.drop c.rowIndex).drop
              ((c.rows.drop c.rowIndex).take n).length := by
          rw [List.drop_drop, Nat.add_comm]
        rw [hdd]
        exact take_append_drop_length n (c.rows.drop c.rowIndex)
      · show (fetchmanyUntilEmpty (Cursor.fetchmany c (some n)).2 n).2.rowIndex =
          c.rows.length
        rw [hstep.2.1, hrows2]
      · show (fetchmanyUntilEmpty (Cursor.fetchmany c (some n)).2 n).2.rows =
          c.rows
        rw [hstep.2.2, hrows2]

/-- C3: for every cursor result set, read position within bounds, and
positive batch size, repeatedly calling `fetchmany n` until it returns an
empty list yields, concatenated in call order, exactly the rows a single
`fetchall` from the same position returns, in the same order; both leave
the read position at the row count. -/
theorem fetchmany_until_empty_eq_fetchall (c : Cursor) (n : Nat)
    (hn : 0 < n) (hi : c.rowIndex ≤ c.rows.length) :
    (fetchmanyUntilEmpty c n).1 = (c.fetchall).1 ∧
    (fetchmanyUntilEmpty c n).2.rowIndex = c.rows.length ∧
    (c.fetchall).2.rowIndex = c.rows.length := by
  have h := fetchmanyUntilEmpty_spec n hn (c.rows.length - c.rowIndex) c rfl hi
  exact ⟨h.1, h.2.1, rfl⟩

/-- Witness for C3 at the sample cursor with batch size 2. -/
theorem fetchmany_until_empty_eq_fetchall_witness :
    (fetchmanyUntilEmpty sampleCursor 2).1 = (sampleCursor.fetchall).1 ∧
    (fetchmanyUntilEmpty sampleCursor 2).2.rowIndex = 3 ∧
    (sampleCursor.fetchall).2.rowIndex = 3 := by
  have h := fetchmany_until_empty_eq_fetchall sampleCursor 2 (by decide)
    (by decide)
  exact ⟨h.1, h.2.1, h.2.2⟩

/-- C7: whenever `execute` fails at any stage past the closed-cursor check
(syntax error, validation error, transport error, or unsupported
operation), the cursor retains no partial result: row buffer empty, read
position 0, description unset, row count -1, last-inserted identifier
unset — exactly the reset performed before dispatch, which no failing path
ever repopulates. -/
theorem execute_failure_resets_state (c : Cursor) (op : String)
    (onQuery : QueryPayload → Except String QueryResponse)
    (onMutate : MutationPayload → Except String MutationResponse)
    (st : Cursor) (e : ExecErr)
    (hef : c.execute op onQuery onMutate = (st, some e))
    (hne : e ≠ ExecErr.interfaceClosed) :
    st.rows = [] ∧ st.rowIndex = 0 ∧ st.description = none ∧
    st.rowcount = -1 ∧ st.lastInsertedId = none := by
  simp only [Cursor.execute] at hef
  by_cases hc : c.closed
  · rw [if_pos hc] at hef
    have : some ExecErr.interfaceClosed = some e := congrArg Prod.snd hef
    exact absurd (Option.some.inj this).symm hne
  · rw [if_neg hc] at hef
    repeat' split at hef
    all_goals
      first
      | (have hst : c.reset = st := congrArg Prod.fst hef
         rw [← hst]
         simp [Cursor.reset])
      | (have h2 : (none : Option ExecErr) = some e := congrArg Prod.snd hef
         simp at h2)

/-- Witness for C7: executing an unsupported statement on a cursor holding a
stale result fails and leaves the fully reset state. -/
theorem execute_failure_resets_state_witness :
    (sampleCursor.execute "FROB" failTransportQ failTransportM).1.rows = [] ∧
    (sampleCursor.execute "FROB" failTransportQ failTransportM).1.rowIndex = 0 ∧
    (sampleCursor.execute "FROB" failTransportQ failTransportM).1.description
      = none ∧
    (sampleCursor.execute "FROB" failTransportQ failTransportM).1.rowcount
      = -1 ∧
    (sampleCursor.execute "FROB" failTransportQ failTransportM).1.lastInsertedId
      = none :=
  execute_failure_resets_state sampleCursor "FROB" failTransportQ
    failTransportM
    (sampleCursor.execute "FROB" failTransportQ failTransportM).1
    (ExecErr.programming "Unsupported operation: FROB") rfl (by decide)

/-- Pairing an even-length all-hex character list yields exactly the
specification's byte sequence: the i-th byte is sixteen times the digit at
position 2i plus the digit at position 2i+1. -/
theorem hexPairs_eq_range_map (k : Nat) : ∀ cs : List Char,
    cs.length = 2 * k → allHexDigits cs = true →
    hexPairs cs = some ((List.range k).map fun i =>
      16 * ((hexDigitVal (cs.getD (2 * i) '0')).getD 0) +
        ((hexDigitVal (cs.getD (2 * i + 1) '0')).getD 0)) := by
  induction k with
  | zero =>
    intro cs hlen _
    have hnil : cs = [] := List.length_eq_zero.mp (by omega)
    subst hnil
    simp [hexPairs]
  | succ k ih =>
    intro cs hlen hhex
    match cs with
    | [] => simp at hlen
    | [a] => simp at hlen; omega
    | a :: b :: rest =>
      simp only [allHexDigits, List.all_cons, Bool.and_eq_true] at hhex
      obtain ⟨ha, hb, hrest⟩ := hhex
      obtain ⟨va, hva⟩ := Option.isSome_iff_exists.mp ha
      obtain ⟨vb, hvb⟩ := Option.isSome_iff_exists.mp hb
      have hlrest : rest.length = 2 * k := by
        simp only [List.length_cons] at hlen
        omega
      have ihr := ih rest hlrest hrest
      rw [hexPairs, hva, hvb, ihr]
      rw [List.range_succ_eq_map]
      simp only [Option.map_some, List.map_cons, List.map_map]
      refine congrArg some ?_
      simp only [List.cons.injEq]
      constructor
      · simp [hva, hvb]
      · refine List.map_congr_left ?_
        intro i _
        have h1 : 2 * Nat.succ i = 2 * i + 1 + 1 := by omega
        have h2 : 2 * Nat.succ i + 1 = (2 * i + 1) + 1 + 1 := by omega
        simp only [Function.comp_apply, h1, h2, List.getD_cons_succ]

/-- C2 counterexample: the client-side identifier decoder rejects a
canonically hyphenated identifier even though exactly 32 hexadecimal digits
remain after hyphen removal, because it never strips hyphens; its error
names the length, not the offending string. -/
theorem client_hex_to_uuid_rejects_hyphens :
    (("01234567-8901-2345-6789-012345678901".toList.filter
      (fun c => c ≠ '-')).length = 32) ∧
    allHexDigits ("01234567-8901-2345-6789-012345678901".toList.filter
      (fun c => c ≠ '-')) = true ∧
    clientHexToUuid "01234567-8901-2345-6789-012345678901" =
      .error "Invalid UUID hex string length: 36" :=
  ⟨by decide, by decide, rfl⟩

/-- C2 amended: the dbapi decoder strips hyphens, requires exactly 32
remaining characters (failing with an error naming the stripped string
otherwise) and pairs hex digits most-significant-first into 16 bytes; the
client decoder demands the raw string itself have length 32 — it never
strips hyphens, and its error names the length. The claim's example string
decodes to the stated 16 bytes. -/
theorem hex_to_uuid_amended (s : String) :
    (let t := s.toList.filter (fun c => c ≠ '-')
     (t.length = 32 → allHexDigits t = true →
        hexToUuid s = .ok (specPairBytes t)) ∧
     (t.length ≠ 32 →
        hexToUuid s = .error ("Invalid UUID hex string: " ++ String.mk t))) ∧
    (s.toList.length = 32 → allHexDigits s.toList = true →
      clientHexToUuid s = .ok (specPairBytes s.toList)) ∧
    (s.toList.length ≠ 32 →
      clientHexToUuid s =
        .error ("Invalid UUID hex string length: " ++ Nat.repr s.toList.length)) ∧
    hexToUuid "01234567890123456789012345678901" =
      .ok [0x01, 0x23, 0x45, 0x67, 0x89, 0x01, 0x23, 0x45,
           0x67, 0x89, 0x01, 0x23, 0x45, 0x67, 0x89, 0x01] := by
  refine ⟨⟨?_, ?_⟩, ?_, ?_, rfl⟩
  · intro hlen hhex
    have hp := hexPairs_eq_range_map 16 (s.toList.filter (fun c => c ≠ '-'))
      (by omega) hhex
    simp only [hexToUuid]
    rw [if_neg (by omega), hp]
    rfl
  · intro hlen
    simp only [hexToUuid]
    rw [if_pos hlen]
  · intro hlen hhex
    have hp := hexPairs_eq_range_map 16 s.toList (by omega) hhex
    simp only [clientHexToUuid]
    rw [if_neg (by omega), hp]
    rfl
  · intro hlen
    simp only [clientHexToUuid]
    rw [if_pos hlen]

/-- Witness for C2's amended statement: the example identifier satisfies the
hypotheses and decodes; a three-character string fails with the message
naming it. -/
theorem hex_to_uuid_amended_witness :
    hexToUuid "01234567890123456789012345678901" =
      .ok (specPairBytes "01234567890123456789012345678901".toList) ∧
    hexToUuid "abc" = .error "Invalid UUID hex string: abc" ∧
    clientHexToUuid "abc" = .error "Invalid UUID hex string length: 3" := by
  refine ⟨?_, ?_, ?_⟩
  · exact (hex_to_uuid_amended "01234567890123456789012345678901").1.1
      (by decide) (by decide)
  · exact (hex_to_uuid_amended "abc").1.2 (by decide)
  · exact (hex_to_uuid_amended "abc").2.2.1 (by decide)

/-- Upserting a key absent from the dict appends it at the end. -/
theorem dictUpsert_not_mem (d : List (String × PyValue)) (k : String)
    (v : PyValue) (hk : ∀ p ∈ d, p.1 ≠ k) :
    dictUpsert d k v = d ++ [(k, v)] := by
  induction d with
  | nil => rfl
  | cons p rest ih =>
    obtain ⟨k0, v0⟩ := p
    have hne : k0 ≠ k := hk (k0, v0) (by simp)
    simp only [dictUpsert, if_neg hne, List.cons_append, List.cons.injEq,
      true_and]
    exact ih (fun q hq => hk q (by simp [hq]))

/-- Folding dict insertion over pairs whose keys are fresh and mutually
distinct appends them in order. -/
theorem pyDict_foldl_nodup : ∀ (l d : List (String × PyValue)),
    (∀ p ∈ l, ∀ q ∈ d, q.1 ≠ p.1) → (l.map Prod.fst).Nodup →
    l.foldl (fun d kv => dictUpsert d kv.1 kv.2) d = d ++ l := by
  intro l
  induction l with
  | nil => intro d _ _; simp
  | cons p rest ih =>
    intro d hdisj hnd
    obtain ⟨k, v⟩ := p
    simp only [List.foldl_cons]
    have hup : dictUpsert d k v = d ++ [(k, v)] :=
      dictUpsert_not_mem d k v (fun q hq => hdisj (k, v) (by simp) q hq)
    rw [hup]
    simp only [List.map_cons, List.nodup_cons] at hnd
    have hdisj' : ∀ p ∈ rest, ∀ q ∈ d ++ [(k, v)], q.1 ≠ p.1 := by
      intro p hp q hq
      rcases List.mem_append.mp hq with h | h
      · exact hdisj p (by simp [hp]) q h
      · simp only [List.mem_singleton] at h
        subst h
        intro hqe
        refine hnd.1 ?_
        rw [show k = p.1 from hqe]
        exact List.mem_map_of_mem Prod.fst hp
    rw [ih (d ++ [(k, v)]) hdisj' hnd.2]
    simp

/-- A pair list with pairwise-distinct keys passes through the Python dict
unchanged: same pairs, same order. -/
theorem pyDictOfList_nodup (l : List (String × PyValue))
    (hnd : (l.map Prod.fst).Nodup) : pyDictOfList l = l := by
  have h := pyDict_foldl_nodup l [] (by simp) hnd
  simpa [pyDictOfList] using h

/-- C5 counterexample: an INSERT statement naming the same field twice sends
a single data entry (the later literal wins), not both. -/
theorem insert_duplicate_field_collapsed :
    buildInsertPayload "INSERT INTO t (a,a) VALUES (1,2)" =
      .ok (MutationPayload.insert "t" [("a", WireValue.int32 2)]) := rfl

/-- C5 amended: for INSERT (and the UPDATE SET dict, built by the same
repeated-assignment mechanism), the outbound data list preserves the source
order of the (field, literal) pairs whenever the field names are distinct;
a duplicated field name is collapsed by the `dict` construction to a single
entry at the first occurrence's position carrying the last occurrence's
value. -/
theorem insert_data_order (fields : List String) (values : List PyValue)
    (hnd : fields.Nodup) (hlen : fields.length = values.length) :
    pyDictOfList (fields.zip values) = fields.zip values ∧
    mutationData (pyDictOfList (fields.zip values)) =
      (fields.zip values).map (fun kv => (kv.1, convertValue kv.2)) ∧
    pyDictOfList [("a", PyValue.int 1), ("a", PyValue.int 2)] =
      [("a", PyValue.int 2)] := by
  have hkeys : (fields.zip values).map Prod.fst = fields :=
    List.map_fst_zip _ _ (le_of_eq hlen)
  have h1 := pyDictOfList_nodup (fields.zip values) (by rw [hkeys]; exact hnd)
  exact ⟨h1, by rw [h1]; rfl, rfl⟩

/-- Witness for C5's amended statement: the spec's round-trip example
`INSERT INTO t (a,b) VALUES (1,'x')` keeps its two assignments in order. -/
theorem insert_data_order_witness :
    (["a", "b"] : List String).Nodup ∧
    mutationData (pyDictOfList ((["a", "b"]).zip
      [PyValue.int 1, PyValue.str "x"])) =
      [("a", WireValue.int32 1), ("b", WireValue.string "x")] := by
  refine ⟨by decide, ?_⟩
  have h := insert_data_order ["a", "b"] [PyValue.int 1, PyValue.str "x"]
    (by decide) rfl
  rw [h.2.1]
  rfl

/-- C6 counterexample: `LIMIT 0 OFFSET 5` parses with limit 0 and offset 5
explicitly given, yet the built payload carries pagination limit 100, not
the given 0, because of the falsy-`or` defaulting. -/
theorem pagination_limit_zero_not_exact :
    parseSelect "SELECT a FROM t LIMIT 0 OFFSET 5" =
      .ok ⟨"t", ["a"], none, none, some 0, some 5⟩ ∧
    buildSelectPayload "SELECT a FROM t LIMIT 0 OFFSET 5" =
      .ok { root_entity := "t", fields := some ["a"], filter := none,
            order_by := none, pagination := some ⟨100, 5⟩ } :=
  ⟨rfl, rfl⟩

/-- C6 amended: a query payload carries a pagination object exactly when a
limit or an offset was explicitly given; an absent or zero limit becomes
100, an absent offset becomes 0, and any other given values are carried
through exactly. -/
theorem pagination_build_amended (st : SelectStmt) :
    ((buildQueryPayload st).pagination.isSome ↔
      (st.limit.isSome ∨ st.offset.isSome)) ∧
    (st.limit = none → st.offset = none →
      (buildQueryPayload st).pagination = none) ∧
    (∀ n, st.limit = some n → st.offset = none →
      (buildQueryPayload st).pagination =
        some ⟨if n = 0 then 100 else n, 0⟩) ∧
    (∀ m, st.limit = none → st.offset = some m →
      (buildQueryPayload st).pagination = some ⟨100, m⟩) ∧
    (∀ n m, st.limit = some n → st.offset = some m →
      (buildQueryPayload st).pagination =
        some ⟨if n = 0 then 100 else n, m⟩) := by
  obtain ⟨ent, flds, fil, ord, lim, off⟩ := st
  refine ⟨?_, ?_, ?_, ?_, ?_⟩
  · cases lim <;> cases off <;> simp [buildQueryPayload]
  · intro h1 h2
    subst h1; subst h2
    simp [buildQueryPayload]
  · intro n h1 h2
    subst h1; subst h2
    simp [buildQueryPayload, pyOrInt]
  · intro m h1 h2
    subst h1; subst h2
    by_cases hm : m = 0 <;> simp [buildQueryPayload, pyOrInt, hm]
  · intro n m h1 h2
    subst h1; subst h2
    by_cases hm : m = 0 <;> simp [buildQueryPayload, pyOrInt, hm]

/-- Witness for C6's amended statement at the spec's example: only
`LIMIT 10` given yields pagination limit 10 and offset 0. -/
theorem pagination_build_amended_witness :
    (buildQueryPayload ⟨"User", ["id", "name"],
      some { field := "status", op := "eq", value := PyValue.str "active" },
      some [{ field := "NAME", direction := "asc" }],
      some 10, none⟩).pagination = some ⟨10, 0⟩ := by
  have h := (pagination_build_amended ⟨"User", ["id", "name"],
    some { field := "status", op := "eq", value := PyValue.str "active" },
    some [{ field := "NAME", direction := "asc" }],
    some 10, none⟩).2.2.1 10 rfl rfl
  rw [h]
  norm_num

/-- C9 counterexample: the token `1e5` contains no `.`, so the literal
parser attempts only the integer parse and falls back to a bare string —
yet a floating-point parse of `1e5` succeeds (value 100000), so the
claimed try-integer-then-float order would have produced a float. -/
theorem parse_sql_value_exponent_token :
    parseSqlValue "1e5" = PyValue.str "1e5" ∧
    pyInt "1e5" = none ∧
    pyFloat "1e5" = some 100000 := by
  refine ⟨rfl, rfl, ?_⟩
  have hp : pyFloatParts "1e5" = some (1, 5) := by decide
  rw [pyFloat, hp]
  show some (((1 : Int) : Rat) * (10 : Rat) ^ (5 : Int)) = some 100000
  norm_num

/-- C9 amended: the literal parser classifies the stripped token in this
order: matching-quote-delimited string (stripped of its outer quotes);
case-insensitive NULL; case-insensitive TRUE/FALSE; then, when the token
contains a `.`, only a floating-point parse is attempted, and otherwise
only an integer parse; a failed numeric parse falls back to the bare
token. -/
theorem parse_sql_value_classification (s : String) :
    ((isQuotedBy (pyStripL s.toList) '\'' ||
        isQuotedBy (pyStripL s.toList) '"') = true →
      parseSqlValue s = .str (String.mk (stripOuter (pyStripL s.toList)))) ∧
    ((isQuotedBy (pyStripL s.toList) '\'' ||
        isQuotedBy (pyStripL s.toList) '"') = false →
      pyUpperL (pyStripL s.toList) = "NULL".toList →
      parseSqlValue s = .null) ∧
    ((isQuotedBy (pyStripL s.toList) '\'' ||
        isQuotedBy (pyStripL s.toList) '"') = false →
      pyUpperL (pyStripL s.toList) ≠ "NULL".toList →
      pyUpperL (pyStripL s.toList) = "TRUE".toList →
      parseSqlValue s = .bool true) ∧
    ((isQuotedBy (pyStripL s.toList) '\'' ||
        isQuotedBy (pyStripL s.toList) '"') = false →
      pyUpperL (pyStripL s.toList) ≠ "NULL".toList →
      pyUpperL (pyStripL s.toList) ≠ "TRUE".toList →
      pyUpperL (pyStripL s.toList) = "FALSE".toList →
      parseSqlValue s = .bool false) ∧
    (∀ q : Rat, (isQuotedBy (pyStripL s.toList) '\'' ||
        isQuotedBy (pyStripL s.toList) '"') = false →
      pyUpperL (pyStripL s.toList) ≠ "NULL".toList →
      pyUpperL (pyStripL s.toList) ≠ "TRUE".toList →
      pyUpperL (pyStripL s.toList) ≠ "FALSE".toList →
      listContains (pyStripL s.toList) ['.'] = true →
      pyFloat (String.mk (pyStripL s.toList)) = some q →
      parseSqlValue s = .float q) ∧
    ((isQuotedBy (pyStripL s.toList) '\'' ||
        isQuotedBy (pyStripL s.toList) '"') = false →
      pyUpperL (pyStripL s.toList) ≠ "NULL".toList →
      pyUpperL (pyStripL s.toList) ≠ "TRUE".toList →
      pyUpperL (pyStripL s.toList) ≠ "FALSE".toList →
      listContains (pyStripL s.toList) ['.'] = true →
      pyFloat (String.mk (pyStripL s.toList)) = none →
      parseSqlValue s = .str (String.mk (pyStripL s.toList))) ∧
    (∀ n : Int, (isQuotedBy (pyStripL s.toList) '\'' ||
        isQuotedBy (pyStripL s.toList) '"') = false →
      pyUpperL (pyStripL s.toList) ≠ "NULL".toList →
      pyUpperL (pyStripL s.toList) ≠ "TRUE".toList →
      pyUpperL (pyStripL s.toList) ≠ "FALSE".toList →
      listContains (pyStripL s.toList) ['.'] = false →
      pyInt (String.mk (pyStripL s.toList)) = some n →
      parseSqlValue s = .int n) ∧
    ((isQuotedBy (pyStripL s.toList) '\'' ||
        isQuotedBy (pyStripL s.toList) '"') = false →
      pyUpperL (pyStripL s.toList) ≠ "NULL".toList →
      pyUpperL (pyStripL s.toList) ≠ "TRUE".toList →
      pyUpperL (pyStripL s.toList) ≠ "FALSE".toList →
      listContains (pyStripL s.toList) ['.'] = false →
      pyInt (String.mk (pyStripL s.toList)) = none →
      parseSqlValue s = .str (String.mk (pyStripL s.toList))) := by
  refine ⟨?_, ?_, ?_, ?_, ?_, ?_, ?_, ?_⟩
  · intro h1
    simp only [parseSqlValue]
    rw [if_pos h1]
  · intro h1 h2
    simp only [parseSqlValue]
    rw [if_neg (by rw [h1]; simp), if_pos h2]
  · intro h1 h2 h3
    simp only [parseSqlValue]
    rw [if_neg (by rw [h1]; simp), if_neg h2, if_pos h3]
  · intro h1 h2 h3 h4
    simp only [parseSqlValue]
    rw [if_neg (by rw [h1]; simp), if_neg h2, if_neg h3, if_pos h4]
  · intro q h1 h2 h3 h4 h5 h6
    simp only [parseSqlValue]
    rw [if_neg (by rw [h1]; simp), if_neg h2, if_neg h3, if_neg h4, if_pos h5, h6]
  · intro h1 h2 h3 h4 h5 h6
    simp only [parseSqlValue]
    rw [if_neg (by rw [h1]; simp), if_neg h2, if_neg h3, if_neg h4, if_pos h5, h6]
  · intro n h1 h2 h3 h4 h5 h6
    simp only [parseSqlValue]
    rw [if_neg (by rw [h1]; simp), if_neg h2, if_neg h3, if_neg h4,
      if_neg (by rw [h5]; simp), h6]
  · intro h1 h2 h3 h4 h5 h6
    simp only [parseSqlValue]
    rw [if_neg (by rw [h1]; simp), if_neg h2, if_neg h3, if_neg h4,
      if_neg (by rw [h5]; simp), h6]

/-- Witness for C9's amended classification at one token of each of five
kinds. -/
theorem parse_sql_value_classification_witness :
    parseSqlValue "'abc'" = PyValue.str "abc" ∧
    parseSqlValue "NULL" = PyValue.null ∧
    parseSqlValue "false" = PyValue.bool false ∧
    parseSqlValue "42" = PyValue.int 42 ∧
    parseSqlValue "2.5" = PyValue.float (5 / 2) := by
  refine ⟨?_, ?_, ?_, ?_, ?_⟩
  · exact (parse_sql_value_classification "'abc'").1 (by decide)
  · exact (parse_sql_value_classification "NULL").2.1 (by decide) (by decide)
  · exact (parse_sql_value_classification "false").2.2.2.1 (by decide)
      (by decide) (by decide) (by decide)
  · exact (parse_sql_value_classification "42").2.2.2.2.2.2.1 42 (by decide)
      (by decide) (by decide) (by decide) (by decide) (by decide)
  · refine (parse_sql_value_classification "2.5").2.2.2.2.1 (5 / 2)
      (by decide) (by decide) (by decide) (by decide) (by decide) ?_
    have hp : pyFloatParts (String.mk (pyStripL "2.5".toList)) =
        some (25, -1) := by decide
    rw [pyFloat, hp]
    show some (((25 : Int) : Rat) * (10 : Rat) ^ (-1 : Int)) = some (5 / 2)
    norm_num

end Ormdb
